import Mathlib

/-!
Verification of the AI-powered devblog automation core: the round-robin
topic cursor (`topicTracker.js`), the 36-hour scheduler gate
(`shouldRunWorkflow.js`), the content fetcher (`fetchPost`) and the post
writer (`savePost` / `generateFrontmatter`), shallowly embedded in Lean.

File I/O is embedded by making the persisted record an explicit value:
the possible observations a read can make of the record file (missing,
empty, unparseable JSON, parsed object without the key, parsed integer)
become constructors of an inductive state type, and each JavaScript
function becomes a pure Lean function from that state (plus the ambient
inputs it reads, such as the clock) to its result and the successor state.
JavaScript `%` on integers is truncating remainder, i.e. `Int.tmod`;
JavaScript out-of-bounds array reads yield `undefined`, i.e. `none`.
-/

/-- A topic catalog entry: `{ title, about }` from `data/topics.js`. -/
structure Topic where
  title : String
  about : String
deriving DecidableEq

/-- The fixed topic catalog, `topics` from `data/topics.js` (46 entries). -/
def topics : List Topic := [
  ⟨"Modern State Management in React",
   "A comparison of Redux Toolkit, Zustand, and Context API for managing state in large-scale React applications."⟩,
  ⟨"CSS Grid vs Flexbox",
   "Understanding the differences, best use cases, and how to create responsive layouts efficiently."⟩,
  ⟨"Next.js Routing Deep Dive",
   "Exploring dynamic routes, nested layouts, and incremental static regeneration in Next.js."⟩,
  ⟨"Progressive Web Apps (PWAs)",
   "How to make web apps installable, offline-ready, and fast using service workers and caching strategies."⟩,
  ⟨"Optimizing Web Performance",
   "Covering lazy loading, image optimization, caching, and Core Web Vitals for faster web apps."⟩,
  ⟨"Web Accessibility (a11y) Best Practices",
   "How to make web applications accessible to all users, including those with disabilities."⟩,
  ⟨"CI/CD Pipelines Explained",
   "A guide to continuous integration and delivery using GitHub Actions, GitLab CI, and Jenkins."⟩,
  ⟨"Docker Essentials for Developers",
   "Understanding containers, images, volumes, and building Dockerized applications."⟩,
  ⟨"Kubernetes 101",
   "Introduction to pods, deployments, services, and scaling applications in Kubernetes clusters."⟩,
  ⟨"Monitoring & Logging in DevOps",
   "Best practices with Prometheus, Grafana, and ELK stack for observability."⟩,
  ⟨"Infrastructure as Code (IaC)",
   "Terraform vs Pulumi: managing cloud infrastructure declaratively and reproducibly."⟩,
  ⟨"GitOps Principles",
   "How to implement GitOps practices for continuous deployment and infrastructure management."⟩,
  ⟨"AWS Lambda Serverless Functions",
   "How to create, deploy, and manage serverless functions in AWS."⟩,
  ⟨"Azure App Services Explained",
   "Deploying scalable web apps using Microsoft Azure App Services."⟩,
  ⟨"Google Cloud Storage Best Practices",
   "Efficient storage strategies, bucket policies, and cost optimization in GCP."⟩,
  ⟨"Cloud Cost Management",
   "How to monitor, analyze, and reduce cloud spending across multiple providers."⟩,
  ⟨"Multi-Cloud Strategies",
   "When and how to use multiple cloud providers for redundancy and scalability."⟩,
  ⟨"Cloud Security Best Practices",
   "How to secure cloud environments, manage identities, and protect data across providers."⟩,
  ⟨"Introduction to Machine Learning for Developers",
   "Basic ML concepts, supervised vs unsupervised learning, and practical Python examples."⟩,
  ⟨"Using AI in Web Applications",
   "Integrating APIs like OpenAI or Hugging Face into web apps for smarter features."⟩,
  ⟨"Deploying ML Models to Production",
   "Containerization, model versioning, and serving strategies."⟩,
  ⟨"NLP Basics for Developers",
   "Working with text, sentiment analysis, and tokenization in practical applications."⟩,
  ⟨"Computer Vision in Web Apps",
   "Using TensorFlow.js or OpenCV for image recognition in browsers."⟩,
  ⟨"Generative AI for Content Creation",
   "Leveraging AI models to generate text, images, and other media for creative projects."⟩,
  ⟨"Building a SaaS MVP",
   "How to structure your stack, iterate quickly, and validate your product with real users."⟩,
  ⟨"Subscription Billing Best Practices",
   "Strategies for recurring payments, invoicing, and handling churn."⟩,
  ⟨"Scaling SaaS Applications",
   "Database, caching, and microservices patterns to handle growth."⟩,
  ⟨"SaaS Analytics and Metrics",
   "Key metrics like MRR, ARR, LTV, and how to track them."⟩,
  ⟨"User Onboarding Strategies",
   "Designing frictionless flows that retain and engage users."⟩,
  ⟨"SaaS Security Best Practices",
   "How to secure SaaS applications, manage user identities, and protect sensitive data."⟩,
  ⟨"TypeScript for JavaScript Developers",
   "Gradual migration, type safety, and best practices in large codebases."⟩,
  ⟨"Python for Web Dev",
   "Using frameworks like Flask and Django to build scalable web applications."⟩,
  ⟨"Node.js Performance Tips",
   "Event loop, async programming, and optimizing server-side JS applications."⟩,
  ⟨"Git Workflows for Teams",
   "Branching strategies, pull requests, and commit conventions for collaborative development."⟩,
  ⟨"VS Code Tips & Tricks",
   "Extensions, debugging techniques, and productivity hacks for developers."⟩,
  ⟨"Landing Your First Developer Job",
   "Resume tips, portfolio setup, and interview preparation strategies."⟩,
  ⟨"Preparing for Technical Interviews",
   "Common questions, whiteboard problems, and coding challenge practice."⟩,
  ⟨"Building a Personal Brand as a Developer",
   "Using GitHub, blogging, and social media to showcase your skills."⟩,
  ⟨"Negotiating Your Developer Salary",
   "Understanding market rates, benefits, and strategies to negotiate effectively."⟩,
  ⟨"Networking for Tech Professionals",
   "Finding mentors, attending meetups, and building valuable connections."⟩,
  ⟨"Remote Work Best Practices",
   "Staying productive, managing time zones, and effective communication in remote teams."⟩,
  ⟨"Microservices vs Monoliths",
   "Pros, cons, and migration strategies for scalable application architecture."⟩,
  ⟨"Event-Driven Architectures",
   "Building reactive systems with queues, pub/sub, and async messaging."⟩,
  ⟨"Progressive Enhancement in Web Apps",
   "Designing applications that work for all users, regardless of browser capabilities."⟩,
  ⟨"Web Security Essentials",
   "Best practices for authentication, authorization, and protecting against common vulnerabilities."⟩,
  ⟨"Server-Side Rendering vs CSR",
   "Benefits and trade-offs for SEO, performance, and user experience."⟩]

/-- Observable states of the persisted cursor record file
(`topicTracker.json`), as distinguished by the branches of
`getLastIndex` in `topicTracker.js`: file absent, file whose content
trims to the empty string, content `JSON.parse` rejects, parsed object
without a `lastIndex` key, and parsed object with integer `lastIndex`. -/
inductive TrackerFile
  | missing
  | empty
  | unparseable
  | noKey
  | value (lastIndex : Int)
deriving DecidableEq

/-- `getLastIndex` from `topicTracker.js`: missing file, empty file,
parse failure and absent key all yield `-1`; otherwise the stored
`lastIndex` is returned unchecked. -/
def getLastIndex : TrackerFile → Int
  | .missing => -1
  | .empty => -1
  | .unparseable => -1
  | .noKey => -1
  | .value i => i

/-- JavaScript array indexing `topics[i]`: `undefined` (here `none`)
outside the bounds, including every negative index except `-0`. -/
def jsIndex (l : List Topic) (i : Int) : Option Topic :=
  if i < 0 then none else l.get? i.toNat

/-- `getNextTopic` from `topicTracker.js`, with the catalog a parameter:
reads the record, computes `(lastIndex + 1) % topics.length` with
JavaScript `%` (truncating, `Int.tmod`), persists the computed index,
and returns `topics[nextIndex]`. The result pairs the returned topic
(`none` when the read is out of bounds, i.e. JavaScript `undefined`)
with the successor record state. -/
def getNextTopicIn (catalog : List Topic) (f : TrackerFile) : Option Topic × TrackerFile :=
  let lastIndex := getLastIndex f
  let nextIndex := Int.tmod (lastIndex + 1) catalog.length
  (jsIndex catalog nextIndex, TrackerFile.value nextIndex)

/-- `getNextTopic` specialised to the program's fixed catalog. -/
def getNextTopic : TrackerFile → Option Topic × TrackerFile :=
  getNextTopicIn topics

/-- The list of topics returned by `n` consecutive `getNextTopic` calls
starting from record state `f`. -/
def cursorOutputs (catalog : List Topic) : TrackerFile → Nat → List (Option Topic)
  | _, 0 => []
  | f, n + 1 =>
    (getNextTopicIn catalog f).fst :: cursorOutputs catalog (getNextTopicIn catalog f).snd n

/-- The record state after `n` consecutive `getNextTopic` calls. -/
def runCursor (catalog : List Topic) : TrackerFile → Nat → TrackerFile
  | f, 0 => f
  | f, n + 1 => runCursor catalog (getNextTopicIn catalog f).snd n

/-- The index the next `getNextTopic` call would return from state `f`. -/
def nextIndexOf (catalog : List Topic) (f : TrackerFile) : Int :=
  Int.tmod (getLastIndex f + 1) catalog.length

/-- Observable states of the persisted run-timestamp record file
(`workflowTracker.json`), as distinguished by the branches of
`getLastRan` in `shouldRunWorkflow.js`. -/
inductive WFile
  | missing
  | empty
  | unparseable
  | noKey
  | value (lastRan : Int)
deriving DecidableEq

/-- `getLastRan` from `shouldRunWorkflow.js`: missing file, empty file,
parse failure and absent key all yield `0`; a stored value goes through
`data.lastRan || 0`, which maps `0` to `0` and passes any other integer
through. -/
def getLastRan : WFile → Int
  | .missing => 0
  | .empty => 0
  | .unparseable => 0
  | .noKey => 0
  | .value t => if t = 0 then 0 else t

/-- `HOURS_36_IN_MS` from `shouldRunWorkflow.js`: 36 hours in milliseconds. -/
def HOURS_36_IN_MS : Int := 36 * 60 * 60 * 1000

/-- `shouldRun` from `shouldRunWorkflow.js`, with `Date.now()` as the
explicit parameter `now`: grants permission (and overwrites the record
with `lastRan = now` before returning) iff the stored `lastRan` is `0`
or at least 36 hours have elapsed; otherwise it denies and leaves the
record untouched. -/
def shouldRun (f : WFile) (now : Int) : Bool × WFile :=
  let lastRan := getLastRan f
  let timeSinceLastRun := now - lastRan
  if lastRan = 0 ∨ HOURS_36_IN_MS ≤ timeSinceLastRun then
    (true, WFile.value now)
  else
    (false, f)

/-- The record state after a sequence of `shouldRun` checks invoked at
the given sequence of clock readings. -/
def runGate : WFile → List Int → WFile
  | f, [] => f
  | f, now :: rest => runGate (shouldRun f now).snd rest

/-- What the single external `fetch` of `fetchPost` can come back with,
as distinguished by the branches of the `try` block: the request (or
response decoding) throws with some message, or an HTTP response arrives
carrying `ok`, `status`, `statusText` and the decoded
`choices[0].message.content` (which may be absent). -/
inductive FetchOutcome
  | thrown (msg : String)
  | httpResponse (ok : Bool) (status : Nat) (statusText : String) (content : Option String)
deriving DecidableEq

/-- JavaScript `\s` restricted to the ASCII whitespace characters
(space, tab, line feed, carriage return, vertical tab, form feed). -/
def jsWhitespaceChar (c : Char) : Bool :=
  c = ' ' || c = '\t' || c = '\n' || c = '\r' || c = '\x0b' || c = '\x0c'

/-- Drop whitespace from both ends of a character list. -/
def trimWs (l : List Char) : List Char :=
  ((l.dropWhile jsWhitespaceChar).reverse.dropWhile jsWhitespaceChar).reverse

/-- JavaScript `String.prototype.trim()`. -/
def jsTrim (s : String) : String :=
  String.mk (trimWs s.data)

/-- The fallback markdown string built in the `catch` of `fetchPost`. -/
def fallbackContent (title about errMsg : String) : String :=
  "# " ++ title ++ "\n\n" ++ about ++
    "\n\n*AI content could not be fetched. Error: " ++ errMsg ++ "*"

/-- The `try` block of `fetchPost`: a thrown fetch propagates its
message; `!response.ok` throws the status-line error; a missing or
falsy (empty) `content` throws the no-content error; otherwise the
trimmed content is returned. -/
def fetchTryBody (o : FetchOutcome) : Except String String :=
  match o with
  | .thrown msg => .error msg
  | .httpResponse ok status statusText content =>
    if ok = false then
      .error ("OpenAI API error: " ++ toString status ++ " " ++ statusText)
    else
      match content with
      | none => .error "No content returned from OpenAI API."
      | some c =>
        if c = "" then .error "No content returned from OpenAI API." else .ok (jsTrim c)

/-- `fetchPost` from `fetchPost.js`, with the outcome of the external
call an explicit parameter. The argument is `none` for a missing
(null/undefined) topic; JavaScript truthiness on the string fields makes
an empty `title` or `about` falsy. An `Except.error` models a thrown
error escaping `fetchPost`; every failure inside the `try` is caught and
converted to the fallback markdown, an `Except.ok`. -/
def fetchPost (topic : Option Topic) (o : FetchOutcome) : Except String String :=
  match topic with
  | none => .error "Topic must have both title and about properties"
  | some t =>
    if t.title = "" ∨ t.about = "" then
      .error "Topic must have both title and about properties"
    else
      match fetchTryBody o with
      | .ok content => .ok content
      | .error e => .ok (fallbackContent t.title t.about e)

/-- Whether the outcome makes the `try` block of `fetchPost` fail
internally: a thrown request, a non-ok HTTP status, or an absent/empty
`content` in the response body. -/
def isGenFailure : FetchOutcome → Bool
  | .thrown _ => true
  | .httpResponse ok _ _ content =>
    !ok || (match content with | none => true | some c => c = "")

/-- The message of the error the `try` block of `fetchPost` raises on a
failing outcome (the message embedded into the fallback markdown). -/
def failMsgOf : FetchOutcome → String
  | .thrown msg => msg
  | .httpResponse ok status statusText _ =>
    if ok = false then "OpenAI API error: " ++ toString status ++ " " ++ statusText
    else "No content returned from OpenAI API."

/-- The characters the slug regex `[^a-z0-9\s]` keeps: lowercase ASCII
letters, ASCII digits, and whitespace. -/
def slugKeepChar (c : Char) : Bool :=
  ('a' ≤ c && c ≤ 'z') || ('0' ≤ c && c ≤ '9') || jsWhitespaceChar c

/-- JavaScript `replace(/\s+/g, "-")`: each maximal run of whitespace
characters becomes a single hyphen. -/
def squashWs : List Char → List Char
  | [] => []
  | [c] => if jsWhitespaceChar c then ['-'] else [c]
  | c1 :: c2 :: rest =>
    if jsWhitespaceChar c1 && jsWhitespaceChar c2 then
      squashWs (c2 :: rest)
    else
      (if jsWhitespaceChar c1 then '-' else c1) :: squashWs (c2 :: rest)

/-- JavaScript `String.prototype.toLowerCase()` (ASCII case mapping). -/
def jsToLower (s : String) : String :=
  String.mk (s.data.map Char.toLower)

/-- The slug pipeline of `savePost`:
`title.toLowerCase().replace(/[^a-z0-9\s]/g, "").trim().replace(/\s+/g, "-")`. -/
def slugOf (title : String) : String :=
  String.mk (squashWs (trimWs ((jsToLower title).data.filter slugKeepChar)))

/-- `generateFrontmatter` from `generateFrontmatter.js`, with the
formatted current date (`toLocaleDateString("en-US", ...)` with the
comma removed, e.g. `Oct 12 2025`) as an explicit parameter. -/
def generateFrontmatter (title description date : String) : String :=
  "---\ntitle: \x27" ++ title ++ "\x27\npubDate: \x27" ++ date ++
    "\x27\ndescription: \x27" ++ description ++ "\x27\n---\n\n"

/-- `path.join` on already-clean segments: join with `/`. -/
def pathJoin (parts : List String) : String :=
  String.intercalate "/" parts

/-- What a `savePost` call does to the outside world: the path it
returns (and writes), the directory it ensures exists, and the bytes it
writes at that path. -/
structure SaveResult where
  filePath : String
  folderEnsured : String
  fileContent : String
deriving DecidableEq

/-- `savePost` from `savePost.js`, with `process.cwd()` and the
formatted date as explicit parameters: derives the slug from the title,
ensures `<cwd>/src/content/blog` exists, and writes the frontmatter
followed by the body to `<slug>.md` in that folder, returning the path. -/
def savePost (cwd title description content date : String) : SaveResult :=
  let slug := slugOf title
  let filename := slug ++ ".md"
  let folder := pathJoin [cwd, "src", "content", "blog"]
  let filePath := pathJoin [folder, filename]
  let frontmatter := generateFrontmatter title description date
  let fullContent := frontmatter ++ content
  ⟨filePath, folder, fullContent⟩

/-! Helper lemmas about the scheduler gate. -/

theorem getLastRan_value (t : Int) : getLastRan (WFile.value t) = t := by
  by_cases h : t = 0 <;> simp [getLastRan, h]

theorem shouldRun_grants (f : WFile) (now : Int)
    (h : getLastRan f = 0 ∨ HOURS_36_IN_MS ≤ now - getLastRan f) :
    shouldRun f now = (true, WFile.value now) := by
  simp only [shouldRun]
  rw [if_pos h]

theorem shouldRun_denies (f : WFile) (now : Int)
    (h0 : getLastRan f ≠ 0) (h : now - getLastRan f < HOURS_36_IN_MS) :
    shouldRun f now = (false, f) := by
  simp only [shouldRun]
  rw [if_neg]
  push_neg
  exact ⟨h0, by omega⟩

theorem shouldRun_snd_cases (f : WFile) (now : Int) :
    (shouldRun f now).snd = f ∨ (shouldRun f now).snd = WFile.value now := by
  simp only [shouldRun]
  split
  · exact Or.inr rfl
  · exact Or.inl rfl

/-- Claim C2: for the gate with persisted `lastRan = T > 0` and the
36-hour cooldown, a check at any `now` with `now - T < cooldown`
returns `false` and leaves the record unchanged, and a check at any
`now` with `now - T >= cooldown` returns `true` and overwrites the
record with `lastRan = now`. -/
theorem gate_cooldown_enforcement (T now : Int) (hT : 0 < T) :
    (now - T < HOURS_36_IN_MS → shouldRun (WFile.value T) now = (false, WFile.value T)) ∧
    (HOURS_36_IN_MS ≤ now - T → shouldRun (WFile.value T) now = (true, WFile.value now)) := by
  constructor
  · intro h
    exact shouldRun_denies _ _ (by rw [getLastRan_value]; omega) (by rw [getLastRan_value]; omega)
  · intro h
    exact shouldRun_grants _ _ (Or.inr (by rw [getLastRan_value]; omega))

/-- Witness for C2 at `T = 1`: a check 1 ms after `T` denies and keeps
the record; a check exactly 36 h after `T` grants and overwrites it. -/
theorem gate_cooldown_enforcement_witness :
    shouldRun (WFile.value 1) 2 = (false, WFile.value 1) ∧
    shouldRun (WFile.value 1) (1 + HOURS_36_IN_MS) = (true, WFile.value (1 + HOURS_36_IN_MS)) :=
  ⟨(gate_cooldown_enforcement 1 2 (by decide)).1 (by decide),
   (gate_cooldown_enforcement 1 (1 + HOURS_36_IN_MS) (by decide)).2 (by decide)⟩

/-- Claim C4: with a missing, empty, or unparseable run-timestamp
record, with a record lacking the key, or with stored `lastRan = 0`, a
gate check at any current time returns `true` (the degraded read cannot
raise: it is total). -/
theorem gate_first_run (now : Int) :
    (shouldRun WFile.missing now).fst = true ∧
    (shouldRun WFile.empty now).fst = true ∧
    (shouldRun WFile.unparseable now).fst = true ∧
    (shouldRun WFile.noKey now).fst = true ∧
    (shouldRun (WFile.value 0) now).fst = true := by
  refine ⟨?_, ?_, ?_, ?_, ?_⟩ <;>
    rw [shouldRun_grants _ _ (Or.inl (by simp [getLastRan]))]

/-- Witness for C4 at `now = 123`. -/
theorem gate_first_run_witness :
    (shouldRun WFile.missing 123).fst = true ∧
    (shouldRun WFile.empty 123).fst = true ∧
    (shouldRun WFile.unparseable 123).fst = true ∧
    (shouldRun WFile.noKey 123).fst = true ∧
    (shouldRun (WFile.value 0) 123).fst = true :=
  gate_first_run 123

/-- Claim C5: with persisted `lastRan = T > 0`, two consecutive checks
at times within the cooldown window after `T` both return `false`, and
the persisted record still holds `T` after both (a denying check writes
nothing). -/
theorem gate_idempotent_denial (T now1 now2 : Int) (hT : 0 < T)
    (_h1l : T ≤ now1) (h1 : now1 - T < HOURS_36_IN_MS)
    (_h2l : T ≤ now2) (h2 : now2 - T < HOURS_36_IN_MS) :
    shouldRun (WFile.value T) now1 = (false, WFile.value T) ∧
    shouldRun ((shouldRun (WFile.value T) now1).snd) now2 = (false, WFile.value T) := by
  have e1 : shouldRun (WFile.value T) now1 = (false, WFile.value T) :=
    shouldRun_denies _ _ (by rw [getLastRan_value]; omega) (by rw [getLastRan_value]; omega)
  refine ⟨e1, ?_⟩
  rw [e1]
  exact shouldRun_denies _ _ (by rw [getLastRan_value]; omega) (by rw [getLastRan_value]; omega)

/-- Witness for C5 at `T = 1`, checks at 1 ms and 2 ms after the epoch. -/
theorem gate_idempotent_denial_witness :
    shouldRun (WFile.value 1) 2 = (false, WFile.value 1) ∧
    shouldRun ((shouldRun (WFile.value 1) 2).snd) 3 = (false, WFile.value 1) :=
  gate_idempotent_denial 1 2 3 (by decide) (by decide) (by decide) (by decide) (by decide)

/-- Claim C7: across any sequence of checks whose clock readings are
non-decreasing (starting at or after the stored value), the persisted
`lastRan` is monotonically non-decreasing; moreover each single check
either leaves the record unchanged or overwrites it with the check
time. -/
theorem gate_lastRan_monotone (f : WFile) (times : List Int)
    (h : List.Chain (· ≤ ·) (getLastRan f) times) :
    getLastRan f ≤ getLastRan (runGate f times) ∧
    ∀ (g : WFile) (now : Int), (shouldRun g now).snd = g ∨ (shouldRun g now).snd = WFile.value now := by
  refine ⟨?_, fun g now => shouldRun_snd_cases g now⟩
  induction times generalizing f with
  | nil => simp [runGate]
  | cons t rest ih =>
    cases h with
    | cons hab hrest =>
      have hstep : getLastRan f ≤ getLastRan (shouldRun f t).snd ∧
          getLastRan (shouldRun f t).snd ≤ t := by
        rcases shouldRun_snd_cases f t with he | he
        · rw [he]
          exact ⟨le_refl _, hab⟩
        · rw [he, getLastRan_value]
          exact ⟨hab, le_refl _⟩
      have hchain : List.Chain (· ≤ ·) (getLastRan (shouldRun f t).snd) rest := by
        cases hrest with
        | nil => exact List.Chain.nil
        | cons hbr hrest2 => exact List.Chain.cons (le_trans hstep.2 hbr) hrest2
      have htail := ih _ hchain
      calc getLastRan f ≤ getLastRan (shouldRun f t).snd := hstep.1
        _ ≤ getLastRan (runGate (shouldRun f t).snd rest) := htail
        _ = getLastRan (runGate f (t :: rest)) := rfl

/-- Witness for C7: from the never-ran state through checks at 5 and 7. -/
theorem gate_lastRan_monotone_witness :
    getLastRan WFile.missing ≤ getLastRan (runGate WFile.missing [5, 7]) ∧
    ∀ (g : WFile) (now : Int), (shouldRun g now).snd = g ∨ (shouldRun g now).snd = WFile.value now :=
  gate_lastRan_monotone WFile.missing [5, 7]
    (List.Chain.cons (by decide) (List.Chain.cons (by decide) List.Chain.nil))

/-! Helper lemmas about the topic cursor. -/

theorem getNextTopicIn_fst (catalog : List Topic) (f : TrackerFile) :
    (getNextTopicIn catalog f).fst = jsIndex catalog (nextIndexOf catalog f) := rfl

theorem getNextTopicIn_snd (catalog : List Topic) (f : TrackerFile) :
    (getNextTopicIn catalog f).snd = TrackerFile.value (nextIndexOf catalog f) := rfl

/-- Claim C1 counterexample: with `topics.length = 46`, a persisted
`lastIndex = 46` (out of range) makes `getNextTopic` return
`topics[(46+1) % 46] = topics[1]`, not `catalog[0]`; a persisted
`lastIndex = -5` makes it return `undefined` (`none`), not `catalog[0]`.
The out-of-range value is therefore not treated like a missing record. -/
theorem cursor_corruption_recovery_counterexample :
    (getNextTopic (TrackerFile.value 46)).fst ≠ topics.get? 0 ∧
    (getNextTopic (TrackerFile.value (-5))).fst ≠ topics.get? 0 := by
  decide

/-- Claim C1 amended: a missing, empty, or unparseable record file, or a
parsed record without the `lastIndex` key, makes the next
`getNextTopic` call return `catalog[0]` without raising; but a parsed
numeric `lastIndex` is used as-is with no range check, so `lastIndex =
46 = N` yields `catalog[1]` and `lastIndex = -5` yields a negative
computed index and hence `undefined` rather than `catalog[0]`. -/
theorem cursor_corruption_recovery_amended :
    (getNextTopic TrackerFile.missing).fst = topics.get? 0 ∧
    (getNextTopic TrackerFile.empty).fst = topics.get? 0 ∧
    (getNextTopic TrackerFile.unparseable).fst = topics.get? 0 ∧
    (getNextTopic TrackerFile.noKey).fst = topics.get? 0 ∧
    (getNextTopic (TrackerFile.value 46)).fst = topics.get? 1 ∧
    (getNextTopic (TrackerFile.value (-5))).fst = none := by
  decide

theorem cursorOutputs_inorder (catalog : List Topic) :
    ∀ (k j : Nat) (f : TrackerFile), getLastIndex f = (j : Int) - 1 → j + k ≤ catalog.length →
      cursorOutputs catalog f k = ((catalog.drop j).take k).map some := by
  intro k
  induction k with
  | zero =>
    intro j f hf hk
    simp [cursorOutputs]
  | succ n ih =>
    intro j f hf hk
    have hj : j < catalog.length := by omega
    have hidx : nextIndexOf catalog f = (j : Int) := by
      unfold nextIndexOf
      rw [hf, show (j : Int) - 1 + 1 = (j : Int) by ring,
        Int.tmod_eq_emod (Int.natCast_nonneg j) (Int.natCast_nonneg catalog.length)]
      exact Int.emod_eq_of_lt (Int.natCast_nonneg j) (by exact_mod_cast hj)
    have hfst : (getNextTopicIn catalog f).fst = some (catalog.get ⟨j, hj⟩) := by
      rw [getNextTopicIn_fst, hidx]
      unfold jsIndex
      rw [if_neg (by omega : ¬ (j : Int) < 0)]
      simp only [Int.toNat_natCast]
      rw [List.get?_eq_getElem?, List.getElem?_eq_getElem hj]
      simp [List.get_eq_getElem]
    have hnext : getLastIndex ((getNextTopicIn catalog f).snd) = ((j + 1 : Nat) : Int) - 1 := by
      rw [getNextTopicIn_snd, hidx]
      simp [getLastIndex]
    calc cursorOutputs catalog f (n + 1)
        = (getNextTopicIn catalog f).fst
            :: cursorOutputs catalog (getNextTopicIn catalog f).snd n := rfl
      _ = some (catalog.get ⟨j, hj⟩) :: ((catalog.drop (j + 1)).take n).map some := by
          rw [hfst, ih (j + 1) _ hnext (by omega)]
      _ = ((catalog.drop j).take (n + 1)).map some := by
          have hj2 : j < (catalog.map some).length := by simpa using hj
          rw [List.map_take, List.map_drop, List.map_take, List.map_drop,
            List.drop_eq_getElem_cons hj2, List.take_succ_cons, List.getElem_map]
          simp [List.get_eq_getElem]

/-- Claim C3: for every non-empty catalog, starting from the initial
cursor state (no persisted record), `N = catalog.length` consecutive
`getNextTopic` calls return exactly the catalog entries, in catalog
order. -/
theorem roundrobin_totality (catalog : List Topic) (hne : catalog ≠ []) :
    cursorOutputs catalog TrackerFile.missing catalog.length = catalog.map some := by
  have hlen : 0 < catalog.length := List.length_pos.mpr hne
  have h := cursorOutputs_inorder catalog catalog.length 0 TrackerFile.missing
    (by simp [getLastIndex]) (by omega)
  simpa using h

/-- Witness for C3 on the program's own 46-entry catalog. -/
theorem roundrobin_totality_witness :
    cursorOutputs topics TrackerFile.missing topics.length = topics.map some :=
  roundrobin_totality topics (by decide)

theorem runCursor_value (catalog : List Topic) (hN : 0 < catalog.length) :
    ∀ (k : Nat) (j : Int), 0 ≤ j → j < (catalog.length : Int) →
      runCursor catalog (TrackerFile.value j) k
        = TrackerFile.value ((j + k) % (catalog.length : Int)) := by
  intro k
  induction k with
  | zero =>
    intro j hj0 hjN
    simp only [runCursor, Nat.cast_zero, Int.add_zero]
    rw [Int.emod_eq_of_lt hj0 hjN]
  | succ n ih =>
    intro j hj0 hjN
    have hNZ : (catalog.length : Int) ≠ 0 := by omega
    have hNpos : (0 : Int) < (catalog.length : Int) := by omega
    have hstep : (getNextTopicIn catalog (TrackerFile.value j)).snd
        = TrackerFile.value ((j + 1) % (catalog.length : Int)) := by
      rw [getNextTopicIn_snd]
      unfold nextIndexOf
      rw [show getLastIndex (TrackerFile.value j) = j from rfl,
        Int.tmod_eq_emod (by omega) (by omega)]
    have h0 : 0 ≤ (j + 1) % (catalog.length : Int) := Int.emod_nonneg _ hNZ
    have hlt : (j + 1) % (catalog.length : Int) < (catalog.length : Int) :=
      Int.emod_lt_of_pos _ hNpos
    have hrec : runCursor catalog (TrackerFile.value j) (n + 1)
        = runCursor catalog (getNextTopicIn catalog (TrackerFile.value j)).snd n := rfl
    rw [hrec, hstep, ih _ h0 hlt]
    congr 1
    rw [Int.emod_add_emod]
    congr 1
    push_cast
    ring

theorem nextIndexOf_value_wrap (catalog : List Topic) (hN : 0 < catalog.length)
    (j : Int) (m : Nat) (hj0 : 0 ≤ j) (hjlt : j < (catalog.length : Int))
    (hmN : (m : Int) + 1 = (catalog.length : Int)) :
    nextIndexOf catalog (TrackerFile.value ((j + m) % (catalog.length : Int))) = j := by
  have hNZ : (catalog.length : Int) ≠ 0 := by omega
  have hr0 : 0 ≤ (j + m) % (catalog.length : Int) := Int.emod_nonneg _ hNZ
  unfold nextIndexOf
  rw [show getLastIndex (TrackerFile.value ((j + m) % (catalog.length : Int)))
      = (j + m) % (catalog.length : Int) from rfl]
  rw [Int.tmod_eq_emod (by omega) (by omega), Int.emod_add_emod]
  rw [show j + (m : Int) + 1 = j + (catalog.length : Int) * 1 by omega]
  rw [Int.add_mul_emod_self_left]
  exact Int.emod_eq_of_lt hj0 hjlt

/-- Claim C6: for every non-empty catalog and every starting state that
satisfies the cursor invariant `-1 <= lastIndex < N`, after exactly
`N = catalog.length` calls the persisted state yields the same next
index as the starting state, so the `(N+1)`-th call returns the same
entry as the first call: rotation is periodic with period `N`. -/
theorem roundrobin_periodicity (catalog : List Topic) (hne : catalog ≠ []) (f : TrackerFile)
    (hlow : -1 ≤ getLastIndex f) (_hhigh : getLastIndex f < (catalog.length : Int)) :
    nextIndexOf catalog (runCursor catalog f catalog.length) = nextIndexOf catalog f ∧
    (getNextTopicIn catalog (runCursor catalog f catalog.length)).fst
      = (getNextTopicIn catalog f).fst := by
  have hN : 0 < catalog.length := List.length_pos.mpr hne
  have hNZ : (catalog.length : Int) ≠ 0 := by omega
  have hNpos : (0 : Int) < (catalog.length : Int) := by omega
  have hj0 : 0 ≤ nextIndexOf catalog f := by
    unfold nextIndexOf
    rw [Int.tmod_eq_emod (by omega) (by omega)]
    exact Int.emod_nonneg _ hNZ
  have hjlt : nextIndexOf catalog f < (catalog.length : Int) := by
    unfold nextIndexOf
    rw [Int.tmod_eq_emod (by omega) (by omega)]
    exact Int.emod_lt_of_pos _ hNpos
  obtain ⟨m, hm⟩ : ∃ m, catalog.length = m + 1 := ⟨catalog.length - 1, by omega⟩
  have hmN : ((m : Int) + 1) = (catalog.length : Int) := by exact_mod_cast hm.symm
  have hrun : runCursor catalog f catalog.length
      = TrackerFile.value ((nextIndexOf catalog f + m) % (catalog.length : Int)) := by
    conv_lhs => rw [hm]
    have hr : runCursor catalog f (m + 1)
        = runCursor catalog (getNextTopicIn catalog f).snd m := rfl
    rw [hr, getNextTopicIn_snd]
    exact runCursor_value catalog hN m _ hj0 hjlt
  have hfinal := nextIndexOf_value_wrap catalog hN (nextIndexOf catalog f) m hj0 hjlt hmN
  refine ⟨by rw [hrun]; exact hfinal, ?_⟩
  rw [getNextTopicIn_fst, getNextTopicIn_fst, hrun, hfinal]

/-- Witness for C6 on the program's 46-entry catalog from the initial
state. -/
theorem roundrobin_periodicity_witness :
    nextIndexOf topics (runCursor topics TrackerFile.missing topics.length)
      = nextIndexOf topics TrackerFile.missing ∧
    (getNextTopicIn topics (runCursor topics TrackerFile.missing topics.length)).fst
      = (getNextTopicIn topics TrackerFile.missing).fst :=
  roundrobin_periodicity topics (by decide) TrackerFile.missing (by decide) (by decide)

/-! Helper lemmas about the content fetcher. -/

theorem fetchTryBody_failure (o : FetchOutcome) (hfail : isGenFailure o = true) :
    fetchTryBody o = .error (failMsgOf o) := by
  cases o with
  | thrown m => rfl
  | httpResponse ok status statusText content =>
    cases ok with
    | false => rfl
    | true =>
      cases content with
      | none => rfl
      | some c =>
        have hc : c = "" := by simpa [isGenFailure] using hfail
        subst hc
        rfl

theorem fetchPost_valid_ok (t : Topic) (o : FetchOutcome)
    (htitle : t.title ≠ "") (habout : t.about ≠ "") :
    fetchPost (some t) o = (match fetchTryBody o with
      | .ok content => .ok content
      | .error e => .ok (fallbackContent t.title t.about e)) := by
  simp only [fetchPost]
  rw [if_neg]
  push_neg
  exact ⟨htitle, habout⟩

/-- Claim C8: for every topic with non-empty title and about, any
internal failure of the generation call (thrown request, non-ok HTTP
status, missing or empty content) makes `fetchPost` return — not raise —
the fallback markdown, which embeds the topic title, the about text, and
the error note. -/
theorem fetchPost_failure_fallback (t : Topic) (o : FetchOutcome)
    (htitle : t.title ≠ "") (habout : t.about ≠ "") (hfail : isGenFailure o = true) :
    fetchPost (some t) o = Except.ok (fallbackContent t.title t.about (failMsgOf o)) ∧
    (∃ pre mid post, fallbackContent t.title t.about (failMsgOf o)
        = pre ++ (t.title ++ (mid ++ (t.about ++ post)))) ∧
    (∃ pre post, fallbackContent t.title t.about (failMsgOf o)
        = pre ++ ("AI content could not be fetched. Error: " ++ post)) := by
  refine ⟨?_, ?_, ?_⟩
  · rw [fetchPost_valid_ok t o htitle habout, fetchTryBody_failure o hfail]
  · refine ⟨"# ", "\n\n",
      "\n\n*AI content could not be fetched. Error: " ++ (failMsgOf o ++ "*"), ?_⟩
    simp [fallbackContent, String.append_assoc]
  · refine ⟨"# " ++ t.title ++ "\n\n" ++ t.about ++ "\n\n*", failMsgOf o ++ "*", ?_⟩
    have h2 : ("\n\n*" : String)
          ++ ("AI content could not be fetched. Error: " ++ (failMsgOf o ++ "*"))
        = "\n\n*AI content could not be fetched. Error: " ++ (failMsgOf o ++ "*") := by
      rw [← String.append_assoc ("\n\n*" : String)
        "AI content could not be fetched. Error: " (failMsgOf o ++ "*")]
      exact congrArg (fun s => s ++ (failMsgOf o ++ "*"))
        (show ("\n\n*" : String) ++ "AI content could not be fetched. Error: "
            = "\n\n*AI content could not be fetched. Error: " from rfl)
    simp [fallbackContent, String.append_assoc, h2]

/-- Witness for C8: a thrown request on the topic `{T, A}`. -/
theorem fetchPost_failure_fallback_witness :
    fetchPost (some ⟨"T", "A"⟩) (FetchOutcome.thrown "boom")
        = Except.ok (fallbackContent "T" "A" (failMsgOf (FetchOutcome.thrown "boom"))) ∧
    (∃ pre mid post, fallbackContent "T" "A" (failMsgOf (FetchOutcome.thrown "boom"))
        = pre ++ ("T" ++ (mid ++ ("A" ++ post)))) ∧
    (∃ pre post, fallbackContent "T" "A" (failMsgOf (FetchOutcome.thrown "boom"))
        = pre ++ ("AI content could not be fetched. Error: " ++ post)) :=
  fetchPost_failure_fallback ⟨"T", "A"⟩ (FetchOutcome.thrown "boom")
    (by decide) (by decide) (by decide)

/-- Claim C10: `fetchPost` throws exactly on invalid input — a missing
topic or one whose title or about is empty (falsy) — with the fixed
validation message, independently of the external outcome (the check
precedes the external call); on valid input every outcome is caught and
converted, so the result is always an `ok` value. -/
theorem fetchPost_input_validation (topic : Option Topic) (o o2 : FetchOutcome) :
    ((∃ e, fetchPost topic o = Except.error e)
        ↔ topic = none ∨ ∃ t, topic = some t ∧ (t.title = "" ∨ t.about = "")) ∧
    (fetchPost topic o = Except.error "Topic must have both title and about properties"
        ∨ ∃ s, fetchPost topic o = Except.ok s) ∧
    ((∃ e, fetchPost topic o = Except.error e) → fetchPost topic o = fetchPost topic o2) := by
  cases topic with
  | none =>
    refine ⟨⟨fun _ => Or.inl rfl, fun _ => ⟨_, rfl⟩⟩, Or.inl rfl, fun _ => rfl⟩
  | some t =>
    by_cases hv : t.title = "" ∨ t.about = ""
    · have he : ∀ o3 : FetchOutcome,
          fetchPost (some t) o3 = Except.error "Topic must have both title and about properties" := by
        intro o3
        simp only [fetchPost]
        rw [if_pos hv]
      refine ⟨⟨fun _ => Or.inr ⟨t, rfl, hv⟩, fun _ => ⟨_, he o⟩⟩, Or.inl (he o), ?_⟩
      intro _
      rw [he o, he o2]
    · push_neg at hv
      have hok : ∀ o3 : FetchOutcome, ∃ s, fetchPost (some t) o3 = Except.ok s := by
        intro o3
        rw [fetchPost_valid_ok t o3 hv.1 hv.2]
        cases fetchTryBody o3 with
        | ok c => exact ⟨c, rfl⟩
        | error e => exact ⟨_, rfl⟩
      obtain ⟨s, hs⟩ := hok o
      refine ⟨⟨?_, ?_⟩, Or.inr ⟨s, hs⟩, ?_⟩
      · rintro ⟨e, he⟩
        rw [hs] at he
        exact absurd he (by simp)
      · rintro (h | ⟨t2, ht2, hbad⟩)
        · exact absurd h (by simp)
        · have : t2 = t := by injection ht2.symm
          subst this
          rcases hbad with hb | hb
          · exact absurd hb hv.1
          · exact absurd hb hv.2
      · rintro ⟨e, he⟩
        rw [hs] at he
        exact absurd he (by simp)

/-! Helper lemmas about the slug pipeline. -/

theorem mem_trimWs (l : List Char) (c : Char) (hc : c ∈ trimWs l) : c ∈ l := by
  unfold trimWs at hc
  rw [List.mem_reverse] at hc
  have hc2 : c ∈ (l.dropWhile jsWhitespaceChar).reverse :=
    (List.dropWhile_sublist _).subset hc
  rw [List.mem_reverse] at hc2
  exact (List.dropWhile_sublist _).subset hc2

theorem keep_not_ws_safe (c : Char) (hk : slugKeepChar c = true)
    (hw : jsWhitespaceChar c = false) :
    ('a' ≤ c ∧ c ≤ 'z') ∨ ('0' ≤ c ∧ c ≤ '9') ∨ c = '-' := by
  simp only [slugKeepChar, hw, Bool.or_false, Bool.or_eq_true, Bool.and_eq_true,
    decide_eq_true_eq] at hk
  rcases hk with h | h
  · exact Or.inl h
  · exact Or.inr (Or.inl h)

theorem squashWs_safe (l : List Char) (h : ∀ c ∈ l, slugKeepChar c = true) :
    ∀ c ∈ squashWs l, ('a' ≤ c ∧ c ≤ 'z') ∨ ('0' ≤ c ∧ c ≤ '9') ∨ c = '-' := by
  induction l with
  | nil =>
    intro c hc
    simp [squashWs] at hc
  | cons c1 rest ih =>
    cases rest with
    | nil =>
      intro c hc
      simp only [squashWs, List.mem_singleton] at hc
      by_cases hw : jsWhitespaceChar c1 = true
      · rw [if_pos hw] at hc
        simp at hc
        exact Or.inr (Or.inr hc)
      · rw [if_neg hw] at hc
        simp at hc
        subst hc
        exact keep_not_ws_safe c (h c (by simp)) (by simpa using hw)
    | cons c2 rest2 =>
      intro c hc
      have hrest : ∀ x ∈ c2 :: rest2, slugKeepChar x = true := by
        intro x hx
        exact h x (List.mem_cons_of_mem _ hx)
      by_cases hw2 : jsWhitespaceChar c1 && jsWhitespaceChar c2
      · rw [show squashWs (c1 :: c2 :: rest2) = squashWs (c2 :: rest2) by
            simp only [squashWs, if_pos hw2]] at hc
        exact ih hrest c hc
      · rw [show squashWs (c1 :: c2 :: rest2)
            = (if jsWhitespaceChar c1 then '-' else c1) :: squashWs (c2 :: rest2) by
            simp only [squashWs, if_neg hw2]] at hc
        rcases List.mem_cons.mp hc with hhd | htl
        · by_cases hw1 : jsWhitespaceChar c1 = true
          · rw [if_pos hw1] at hhd
            exact Or.inr (Or.inr hhd)
          · rw [if_neg hw1] at hhd
            subst hhd
            exact keep_not_ws_safe c (h c (by simp)) (by simpa using hw1)
        · exact ih hrest c htl

theorem slugOf_safe (title : String) :
    ∀ c ∈ (slugOf title).data, ('a' ≤ c ∧ c ≤ 'z') ∨ ('0' ≤ c ∧ c ≤ '9') ∨ c = '-' := by
  intro c hc
  have hdata : (slugOf title).data
      = squashWs (trimWs ((jsToLower title).data.filter slugKeepChar)) := rfl
  rw [hdata] at hc
  refine squashWs_safe _ ?_ c hc
  intro x hx
  exact (List.mem_filter.mp (mem_trimWs _ x hx)).2

/-- Claim C9: for every title, description, body (and ambient working
directory and formatted date), `savePost` writes the generated
frontmatter followed by the body to `<slug>.md` under the blog content
directory (which it ensures exists), returns that path, the frontmatter
embeds the title, date, and description, and the derived slug is
filesystem-safe: every character is a lowercase ASCII letter, a digit,
or a hyphen. -/
theorem savePost_spec (cwd title description body date : String) :
    (savePost cwd title description body date).filePath
        = pathJoin [cwd, "src", "content", "blog"] ++ "/" ++ (slugOf title ++ ".md") ∧
    (savePost cwd title description body date).folderEnsured
        = pathJoin [cwd, "src", "content", "blog"] ∧
    (savePost cwd title description body date).fileContent
        = generateFrontmatter title description date ++ body ∧
    (∃ pre mid post, generateFrontmatter title description date
        = pre ++ (title ++ (mid ++ (date ++ (post ++ (description ++ "\x27\n---\n\n")))))) ∧
    (∀ c ∈ (slugOf title).data, ('a' ≤ c ∧ c ≤ 'z') ∨ ('0' ≤ c ∧ c ≤ '9') ∨ c = '-') := by
  refine ⟨rfl, rfl, rfl, ?_, slugOf_safe title⟩
  refine ⟨"---\ntitle: \x27", "\x27\npubDate: \x27", "\x27\ndescription: \x27", ?_⟩
  simp [generateFrontmatter, String.append_assoc]

/-- Witness for C9 on a concrete post. -/
theorem savePost_spec_witness :
    (savePost "/repo" "Kubernetes 101" "Intro" "Body" "Oct 8 2025").filePath
      = pathJoin ["/repo", "src", "content", "blog"] ++ "/"
          ++ (slugOf "Kubernetes 101" ++ ".md") :=
  (savePost_spec "/repo" "Kubernetes 101" "Intro" "Body" "Oct 8 2025").1
